import Mathlib

/-!
Verification of the nix2js runtime support library (nix-builtins) against its
natural-language specification.  The definitions below are shallow embeddings
of the JavaScript/TypeScript sources:

* `src/nix-builtins/index.ts` — error classes, `fixObjectProto`, `mkScope`,
  `binop_helper` and the `nixOp` operator table, `tryEval`, `compareVersions`,
  `intersectAttrs`, `listToAttrs`, `mapAttrs`, `removeAttrs`, `partition`,
  `parseDrvName`;
* `src/nix-builtins/index.js` — the `Lazy` thunk class and `force`;
* the import engine (`import_` / `importTail` with its module cache).

JavaScript values are modelled by the inductive `JSVal`; promises are already
settled in every operator (the code `await`s both operands first), so an
operator takes plain `JSVal`s and returns `Except JSError JSVal`.  JS `typeof`
is modelled by the enumeration `JSTy` (string comparison of `typeof` results
in the code is equality of `JSTy` here; `tyName` recovers the literal string
used in error messages).
-/

/-- The five error kinds of the runtime (§4.6 of the spec): the host
`TypeError` / `RangeError` plus the custom classes `ScopeError`,
`NixEvalError` and `NixAbortError` from `src/nix-builtins/index.ts`. -/
inductive JSError : Type where
  | typeError (msg : String)
  | rangeError (msg : String)
  | scopeError (msg : String)
  | nixEvalError (msg : String)
  | nixAbortError (msg : String)
deriving DecidableEq

/-- JavaScript runtime values as used by the transpiled Nix code: `null`,
`undefined`, booleans, numbers (modelled as rationals; the claims under
verification only exercise exactly-representable arithmetic), bigints
(Nix integers), strings, arrays (Nix lists), objects (Nix attrsets, with a
flag recording whether the prototype is `null`, i.e. whether the object was
produced through `fixObjectProto` / `Object.create(null)`), and functions
(opaque, tagged by an id). -/
inductive JSVal : Type where
  | null
  | undef
  | bool (b : Bool)
  | num (q : Rat)
  | bigint (n : Int)
  | str (s : String)
  | list (xs : List JSVal)
  | obj (fields : List (String × JSVal)) (protoNull : Bool)
  | fn (id : Nat)

/-- Result classification of the JS `typeof` operator. -/
inductive JSTy : Type where
  | objectT
  | undefinedT
  | booleanT
  | numberT
  | bigintT
  | stringT
  | functionT
deriving DecidableEq

/-- `typeof` on a `JSVal`.  Note `typeof null === "object"` and that arrays
and attrsets are indistinguishable at this level. -/
def jsTypeof : JSVal → JSTy
  | .null => .objectT
  | .undef => .undefinedT
  | .bool _ => .booleanT
  | .num _ => .numberT
  | .bigint _ => .bigintT
  | .str _ => .stringT
  | .list _ => .objectT
  | .obj _ _ => .objectT
  | .fn _ => .functionT

/-- The literal string produced by JS `typeof`, used in error messages. -/
def tyName : JSTy → String
  | .objectT => "object"
  | .undefinedT => "undefined"
  | .booleanT => "boolean"
  | .numberT => "number"
  | .bigintT => "bigint"
  | .stringT => "string"
  | .functionT => "function"

/-- Own-property field list as seen by `Object.assign` for each value kind:
objects contribute their fields, arrays contribute index-keyed entries,
strings contribute index-keyed characters, primitives and `null` contribute
nothing. -/
def fieldsOf : JSVal → List (String × JSVal)
  | .obj fs _ => fs
  | .list xs => xs.enum.map (fun p => (toString p.1, p.2))
  | .str s => (s.toList.enum.map (fun p => (toString p.1, JSVal.str (String.mk [p.2]))))
  | _ => []

/-- One step of `Object.assign`: assigning key `kv.1` overwrites an existing
own property in place (JS objects hold each key once), otherwise appends a
new one. -/
def assignOne : List (String × JSVal) → String × JSVal → List (String × JSVal)
  | [], kv => [kv]
  | p :: rest, kv =>
      if p.1 = kv.1 then (p.1, kv.2) :: rest else p :: assignOne rest kv

/-- `Object.assign(dst, src)` on field lists: source entries are applied in
order. -/
def assignFields (dst src : List (String × JSVal)) : List (String × JSVal) :=
  src.foldl assignOne dst

/-- `fixObjectProto(...objs) = Object.assign(Object.create(null), ...objs)`
(src/nix-builtins/index.ts, lines 72-73): a fresh object with `null`
prototype holding the merged fields of the arguments. -/
def fixObjectProto (objs : List JSVal) : JSVal :=
  .obj (objs.foldl (fun acc o => assignFields acc (fieldsOf o)) []) true

/-- Whether a value is an object whose prototype is `null`. -/
def protoNullOf : JSVal → Bool
  | .obj _ p => p
  | _ => false

/-- `tryEval` (src/nix-builtins/index.ts, lines 805-817).  The argument is the
settled outcome of `await e` (forcing): either a value or a raised error.
Only `NixEvalError` is caught; the result record is built through
`fixObjectProto({ value, success })`. -/
def tryEval (e : Except JSError JSVal) : Except JSError JSVal :=
  match e with
  | .ok v => .ok (fixObjectProto [.obj [("value", v), ("success", .bool true)] false])
  | .error (.nixEvalError _) =>
      .ok (fixObjectProto [.obj [("value", .bool false), ("success", .bool false)] false])
  | .error err => .error err

/-- Claim C2: `tryEval e` forces `e`; if forcing raises a `NixEvalError` it
returns `{value = false, success = false}`; any other error kind
(`NixAbortError`, `TypeError`, `RangeError`, `ScopeError`) propagates
unchanged; on success it returns `{value = <forced value>, success = true}`.
Both result records are built via `fixObjectProto`, hence have a null
prototype. -/
theorem tryEval_catches_only_NixEvalError :
    (∀ v : JSVal, tryEval (.ok v) =
      .ok (.obj [("value", v), ("success", .bool true)] true))
    ∧ (∀ m : String, tryEval (.error (.nixEvalError m)) =
      .ok (.obj [("value", .bool false), ("success", .bool false)] true))
    ∧ (∀ m : String, tryEval (.error (.nixAbortError m)) = .error (.nixAbortError m))
    ∧ (∀ m : String, tryEval (.error (.typeError m)) = .error (.typeError m))
    ∧ (∀ m : String, tryEval (.error (.rangeError m)) = .error (.rangeError m))
    ∧ (∀ m : String, tryEval (.error (.scopeError m)) = .error (.scopeError m)) := by
  refine ⟨fun v => rfl, fun m => rfl, fun m => rfl, fun m => rfl, fun m => rfl, fun m => rfl⟩

/-- `fmt_fname` (src/nix-builtins/index.ts, lines 19-20): single-character
operator names are prefixed with "operator ". -/
def fmt_fname (fname : String) : String :=
  if fname.length != 1 then fname else "operator " ++ fname

/-- `binop_helper` (src/nix-builtins/index.ts, lines 205-219): await both
operands, compare their `typeof`s, and only on equality run the
operator-specific body; otherwise raise the mismatch `TypeError`. -/
def binop_helper (fname : String) (f : JSVal → JSVal → Except JSError JSVal)
    (a b : JSVal) : Except JSError JSVal :=
  if jsTypeof a = jsTypeof b then f a b
  else .error (.typeError (fmt_fname fname ++ ": given types mismatch ("
      ++ tyName (jsTypeof a) ++ " != " ++ tyName (jsTypeof b) ++ ")"))

/-- The `req_type` failure message (src/nix-builtins/index.ts, lines 221-232). -/
def req_type_msg (fname : String) (t : JSTy) (xptype : String) : String :=
  fmt_fname fname ++ ": invalid input type (" ++ tyName t ++ "), expected ("
    ++ xptype ++ ")"

/-- Body of `nixOp.Add`: number addition or string concatenation, anything
else (including bigints) is an invalid input type. -/
def addF : JSVal → JSVal → Except JSError JSVal
  | .num x, .num y => .ok (.num (x + y))
  | .str s, .str t => .ok (.str (s ++ t))
  | a, _ => .error (.typeError ("operator +: invalid input type ("
      ++ tyName (jsTypeof a) ++ ")"))

/-- Body of `nixOp.Sub`: `req_number` checks the first operand only. -/
def subF : JSVal → JSVal → Except JSError JSVal
  | .num x, .num y => .ok (.num (x - y))
  | a, _ => .error (.typeError (req_type_msg "-" (jsTypeof a) "number"))

/-- Body of `nixOp.Mul`. -/
def mulF : JSVal → JSVal → Except JSError JSVal
  | .num x, .num y => .ok (.num (x * y))
  | a, _ => .error (.typeError (req_type_msg "*" (jsTypeof a) "number"))

/-- Body of `nixOp.Div`: a zero divisor raises `RangeError("Division by
zero")` even though both operands have the accepted type. -/
def divF : JSVal → JSVal → Except JSError JSVal
  | .num x, .num y =>
      if y = 0 then .error (.rangeError "Division by zero")
      else .ok (.num (x / y))
  | a, _ => .error (.typeError (req_type_msg "/" (jsTypeof a) "number"))

/-- Body of `nixOp.And`. -/
def andF : JSVal → JSVal → Except JSError JSVal
  | .bool x, .bool y => .ok (.bool (x && y))
  | a, _ => .error (.typeError (req_type_msg "&&" (jsTypeof a) "boolean"))

/-- Body of `nixOp.Or`. -/
def orF : JSVal → JSVal → Except JSError JSVal
  | .bool x, .bool y => .ok (.bool (x || y))
  | a, _ => .error (.typeError (req_type_msg "||" (jsTypeof a) "boolean"))

/-- Body of `nixOp.Implication`: `!a || b`. -/
def implicationF : JSVal → JSVal → Except JSError JSVal
  | .bool x, .bool y => .ok (.bool (!x || y))
  | a, _ => .error (.typeError (req_type_msg "->" (jsTypeof a) "boolean"))

/-- Body of `nixOp.Less`. -/
def lessF : JSVal → JSVal → Except JSError JSVal
  | .num x, .num y => .ok (.bool (decide (x < y)))
  | a, _ => .error (.typeError (req_type_msg "<" (jsTypeof a) "number"))

/-- Body of `nixOp.LessOrEq`. -/
def lessOrEqF : JSVal → JSVal → Except JSError JSVal
  | .num x, .num y => .ok (.bool (decide (x ≤ y)))
  | a, _ => .error (.typeError (req_type_msg "<=" (jsTypeof a) "number"))

/-- Body of `nixOp.More`. -/
def moreF : JSVal → JSVal → Except JSError JSVal
  | .num x, .num y => .ok (.bool (decide (y < x)))
  | a, _ => .error (.typeError (req_type_msg ">" (jsTypeof a) "number"))

/-- Body of `nixOp.MoreOrEq`. -/
def moreOrEqF : JSVal → JSVal → Except JSError JSVal
  | .num x, .num y => .ok (.bool (decide (y ≤ x)))
  | a, _ => .error (.typeError (req_type_msg ">=" (jsTypeof a) "number"))

/-- Body of `nixOp.Concat`: the explicit check only rules out non-`object`
`typeof`s; calling `.concat` on `null` or on a plain object then fails with a
host `TypeError`, while `Array.prototype.concat` appends a non-array argument
as a single element. -/
def concatF : JSVal → JSVal → Except JSError JSVal
  | .list xs, .list ys => .ok (.list (xs ++ ys))
  | .list xs, b => .ok (.list (xs ++ [b]))
  | .null, _ => .error (.typeError "Cannot read properties of null (reading concat)")
  | .obj _ _, _ => .error (.typeError "a.concat is not a function")
  | a, _ => .error (.typeError ("operator ++: invalid input type ("
      ++ tyName (jsTypeof a) ++ ")"))

/-- Body of `nixOp.Update`: `fixObjectProto({}, a, b)`, a fresh null-prototype
object with `a`'s fields overwritten by `b`'s. -/
def updateF (a b : JSVal) : Except JSError JSVal :=
  if jsTypeof a ≠ .objectT then
    .error (.typeError ("operator //: invalid input type ("
      ++ tyName (jsTypeof a) ++ ")"))
  else .ok (fixObjectProto [.obj [] false, a, b])

/-- `nixOp.Add` (src/nix-builtins/index.ts, lines 460-468). -/
def nixAdd : JSVal → JSVal → Except JSError JSVal := binop_helper "+" addF

/-- `nixOp.Sub` (src/nix-builtins/index.ts, lines 469-472). -/
def nixSub : JSVal → JSVal → Except JSError JSVal := binop_helper "-" subF

/-- `nixOp.Mul` (src/nix-builtins/index.ts, lines 473-476). -/
def nixMul : JSVal → JSVal → Except JSError JSVal := binop_helper "*" mulF

/-- `nixOp.Div` (src/nix-builtins/index.ts, lines 477-483). -/
def nixDiv : JSVal → JSVal → Except JSError JSVal := binop_helper "/" divF

/-- `nixOp.And` (src/nix-builtins/index.ts, lines 484-487). -/
def nixAnd : JSVal → JSVal → Except JSError JSVal := binop_helper "&&" andF

/-- `nixOp.Or` (src/nix-builtins/index.ts, lines 492-495). -/
def nixOr : JSVal → JSVal → Except JSError JSVal := binop_helper "||" orF

/-- `nixOp.Implication` (src/nix-builtins/index.ts, lines 488-491). -/
def nixImplication : JSVal → JSVal → Except JSError JSVal :=
  binop_helper "->" implicationF

/-- `nixOp.Less` (src/nix-builtins/index.ts, lines 498-501). -/
def nixLess : JSVal → JSVal → Except JSError JSVal := binop_helper "<" lessF

/-- `nixOp.LessOrEq` (src/nix-builtins/index.ts, lines 502-505). -/
def nixLessOrEq : JSVal → JSVal → Except JSError JSVal := binop_helper "<=" lessOrEqF

/-- `nixOp.More` (src/nix-builtins/index.ts, lines 506-509). -/
def nixMore : JSVal → JSVal → Except JSError JSVal := binop_helper ">" moreF

/-- `nixOp.MoreOrEq` (src/nix-builtins/index.ts, lines 510-513). -/
def nixMoreOrEq : JSVal → JSVal → Except JSError JSVal := binop_helper ">=" moreOrEqF

/-- `nixOp.Concat` (src/nix-builtins/index.ts, lines 447-452). -/
def nixConcat : JSVal → JSVal → Except JSError JSVal :=
  binop_helper "operator ++" concatF

/-- `nixOp.Update` (src/nix-builtins/index.ts, lines 454-459). -/
def nixUpdate : JSVal → JSVal → Except JSError JSVal :=
  binop_helper "operator //" updateF

/-- Whether an `Except` result is a success. -/
def isOkE (e : Except JSError JSVal) : Bool :=
  match e with
  | .ok _ => true
  | .error _ => false

lemma binop_mismatch (fname : String) (f : JSVal → JSVal → Except JSError JSVal)
    (a b : JSVal) (h : jsTypeof a ≠ jsTypeof b) :
    binop_helper fname f a b = .error (.typeError (fmt_fname fname
      ++ ": given types mismatch (" ++ tyName (jsTypeof a) ++ " != "
      ++ tyName (jsTypeof b) ++ ")")) := by
  simp [binop_helper, h]

lemma nixAdd_ok_iff (a b : JSVal) :
    isOkE (nixAdd a b) = true ↔
      jsTypeof a = jsTypeof b ∧ (jsTypeof a = .numberT ∨ jsTypeof a = .stringT) := by
  cases a <;> cases b <;> simp [nixAdd, binop_helper, addF, jsTypeof, isOkE]

lemma nixSub_ok_iff (a b : JSVal) :
    isOkE (nixSub a b) = true ↔ jsTypeof a = jsTypeof b ∧ jsTypeof a = .numberT := by
  cases a <;> cases b <;> simp [nixSub, binop_helper, subF, jsTypeof, isOkE]

lemma nixMul_ok_iff (a b : JSVal) :
    isOkE (nixMul a b) = true ↔ jsTypeof a = jsTypeof b ∧ jsTypeof a = .numberT := by
  cases a <;> cases b <;> simp [nixMul, binop_helper, mulF, jsTypeof, isOkE]

lemma nixDiv_ok_iff (a b : JSVal) :
    isOkE (nixDiv a b) = true ↔
      jsTypeof a = jsTypeof b ∧ jsTypeof a = .numberT ∧ b ≠ .num 0 := by
  cases a <;> cases b <;>
    simp [nixDiv, binop_helper, divF, jsTypeof, isOkE]
  rename_i x y
  by_cases hy : y = 0 <;> simp [hy, isOkE]

lemma nixAnd_ok_iff (a b : JSVal) :
    isOkE (nixAnd a b) = true ↔ jsTypeof a = jsTypeof b ∧ jsTypeof a = .booleanT := by
  cases a <;> cases b <;> simp [nixAnd, binop_helper, andF, jsTypeof, isOkE]

lemma nixOr_ok_iff (a b : JSVal) :
    isOkE (nixOr a b) = true ↔ jsTypeof a = jsTypeof b ∧ jsTypeof a = .booleanT := by
  cases a <;> cases b <;> simp [nixOr, binop_helper, orF, jsTypeof, isOkE]

lemma nixImplication_ok_iff (a b : JSVal) :
    isOkE (nixImplication a b) = true ↔
      jsTypeof a = jsTypeof b ∧ jsTypeof a = .booleanT := by
  cases a <;> cases b <;>
    simp [nixImplication, binop_helper, implicationF, jsTypeof, isOkE]

lemma nixLess_ok_iff (a b : JSVal) :
    isOkE (nixLess a b) = true ↔ jsTypeof a = jsTypeof b ∧ jsTypeof a = .numberT := by
  cases a <;> cases b <;> simp [nixLess, binop_helper, lessF, jsTypeof, isOkE]

lemma nixLessOrEq_ok_iff (a b : JSVal) :
    isOkE (nixLessOrEq a b) = true ↔ jsTypeof a = jsTypeof b ∧ jsTypeof a = .numberT := by
  cases a <;> cases b <;> simp [nixLessOrEq, binop_helper, lessOrEqF, jsTypeof, isOkE]

lemma nixMore_ok_iff (a b : JSVal) :
    isOkE (nixMore a b) = true ↔ jsTypeof a = jsTypeof b ∧ jsTypeof a = .numberT := by
  cases a <;> cases b <;> simp [nixMore, binop_helper, moreF, jsTypeof, isOkE]

lemma nixMoreOrEq_ok_iff (a b : JSVal) :
    isOkE (nixMoreOrEq a b) = true ↔ jsTypeof a = jsTypeof b ∧ jsTypeof a = .numberT := by
  cases a <;> cases b <;> simp [nixMoreOrEq, binop_helper, moreOrEqF, jsTypeof, isOkE]

lemma nixConcat_ok_iff (a b : JSVal) :
    isOkE (nixConcat a b) = true ↔
      jsTypeof a = jsTypeof b ∧ ∃ xs, a = .list xs := by
  cases a <;> cases b <;> simp [nixConcat, binop_helper, concatF, jsTypeof, isOkE]

lemma nixUpdate_ok_iff (a b : JSVal) :
    isOkE (nixUpdate a b) = true ↔
      jsTypeof a = jsTypeof b ∧ jsTypeof a = .objectT := by
  cases a <;> cases b <;> simp [nixUpdate, binop_helper, updateF, jsTypeof, isOkE]

/-- Claim C4, counterexample: the claim states that a typed binary operator
raises exactly when the operand types differ or are not accepted, and that
accepted operands never raise.  For `/` both operands of `1 / 0` are numbers
(the accepted type, with equal `typeof`s), yet the operator raises
`RangeError("Division by zero")`. -/
theorem binop_div_zero_raises_cex :
    jsTypeof (JSVal.num 1) = jsTypeof (JSVal.num 0)
    ∧ nixDiv (JSVal.num 1) (JSVal.num 0) = .error (.rangeError "Division by zero") := by
  exact ⟨rfl, rfl⟩

/-- Claim C4, amended: every binary typed operator (`+`, `-`, `*`, `/`, `++`,
`//`, `&&`, `||`, `->`, `<`, `<=`, `>`, `>=`) raises a `TypeError` whose
message contains "given types mismatch (A != B)" whenever the two operands'
JS `typeof`s differ (first conjunct: the mismatch error, with the exact
message, for any operator built on `binop_helper`).  When the `typeof`s
agree, each operator succeeds exactly when the first operand passes the
operator's acceptance check — number or string for `+`; number for `-`, `*`,
`<`, `<=`, `>`, `>=`; boolean for `&&`, `||`, `->`; an array for `++`; any
`typeof`-object value for `//` — except that `/` additionally raises
`RangeError` when the divisor is `0` even though both operands are accepted
numbers. -/
theorem binop_type_rules :
    (∀ (fname : String) (f : JSVal → JSVal → Except JSError JSVal) (a b : JSVal),
      jsTypeof a ≠ jsTypeof b →
        binop_helper fname f a b = .error (.typeError (fmt_fname fname
          ++ ": given types mismatch (" ++ tyName (jsTypeof a) ++ " != "
          ++ tyName (jsTypeof b) ++ ")")))
    ∧ (∀ a b, isOkE (nixAdd a b) = true ↔
        jsTypeof a = jsTypeof b ∧ (jsTypeof a = .numberT ∨ jsTypeof a = .stringT))
    ∧ (∀ a b, isOkE (nixSub a b) = true ↔
        jsTypeof a = jsTypeof b ∧ jsTypeof a = .numberT)
    ∧ (∀ a b, isOkE (nixMul a b) = true ↔
        jsTypeof a = jsTypeof b ∧ jsTypeof a = .numberT)
    ∧ (∀ a b, isOkE (nixDiv a b) = true ↔
        jsTypeof a = jsTypeof b ∧ jsTypeof a = .numberT ∧ b ≠ .num 0)
    ∧ (∀ a b, isOkE (nixConcat a b) = true ↔
        jsTypeof a = jsTypeof b ∧ ∃ xs, a = .list xs)
    ∧ (∀ a b, isOkE (nixUpdate a b) = true ↔
        jsTypeof a = jsTypeof b ∧ jsTypeof a = .objectT)
    ∧ (∀ a b, isOkE (nixAnd a b) = true ↔
        jsTypeof a = jsTypeof b ∧ jsTypeof a = .booleanT)
    ∧ (∀ a b, isOkE (nixOr a b) = true ↔
        jsTypeof a = jsTypeof b ∧ jsTypeof a = .booleanT)
    ∧ (∀ a b, isOkE (nixImplication a b) = true ↔
        jsTypeof a = jsTypeof b ∧ jsTypeof a = .booleanT)
    ∧ (∀ a b, isOkE (nixLess a b) = true ↔
        jsTypeof a = jsTypeof b ∧ jsTypeof a = .numberT)
    ∧ (∀ a b, isOkE (nixLessOrEq a b) = true ↔
        jsTypeof a = jsTypeof b ∧ jsTypeof a = .numberT)
    ∧ (∀ a b, isOkE (nixMore a b) = true ↔
        jsTypeof a = jsTypeof b ∧ jsTypeof a = .numberT)
    ∧ (∀ a b, isOkE (nixMoreOrEq a b) = true ↔
        jsTypeof a = jsTypeof b ∧ jsTypeof a = .numberT) := by
  exact ⟨binop_mismatch, nixAdd_ok_iff, nixSub_ok_iff, nixMul_ok_iff, nixDiv_ok_iff,
    nixConcat_ok_iff, nixUpdate_ok_iff, nixAnd_ok_iff, nixOr_ok_iff,
    nixImplication_ok_iff, nixLess_ok_iff, nixLessOrEq_ok_iff, nixMore_ok_iff,
    nixMoreOrEq_ok_iff⟩

/-- Witness for `binop_type_rules` at concrete inputs: a number/string
mismatch on `+` produces the mismatch `TypeError`, and `5 + 7` succeeds. -/
theorem binop_type_rules_witness :
    (binop_helper "+" addF (JSVal.num 5) (JSVal.str "oops")
      = .error (.typeError ("operator +: given types mismatch (number != string)")))
    ∧ (isOkE (nixAdd (JSVal.num 5) (JSVal.num 7)) = true) :=
  ⟨by
    have h := binop_type_rules.1 "+" addF (JSVal.num 5) (JSVal.str "oops") (by decide)
    simpa [fmt_fname, tyName, jsTypeof] using h,
   (binop_type_rules.2.1 (JSVal.num 5) (JSVal.num 7)).2 ⟨rfl, Or.inl rfl⟩⟩

/-- First-match association lookup, i.e. reading an own property. -/
def lookupF : List (String × JSVal) → String → Option JSVal
  | [], _ => none
  | (k1, v1) :: rest, k => if k = k1 then some v1 else lookupF rest k

/-- Last-match association lookup: the value the key holds after all entries
of the list have been assigned in order (right-wins). -/
def lastLookup : List (String × JSVal) → String → Option JSVal
  | [], _ => none
  | (k1, v1) :: rest, k =>
      match lastLookup rest k with
      | some v => some v
      | none => if k = k1 then some v1 else none

/-- `Option` fallback. -/
def orElseO (x y : Option JSVal) : Option JSVal :=
  match x with
  | some v => some v
  | none => y

lemma lookupF_assignOne (fs : List (String × JSVal)) (k1 : String) (v1 : JSVal)
    (k : String) :
    lookupF (assignOne fs (k1, v1)) k = if k = k1 then some v1 else lookupF fs k := by
  induction fs with
  | nil =>
      by_cases h : k = k1 <;> simp [assignOne, lookupF, h]
  | cons hd tl ih =>
      obtain ⟨hk, hv⟩ := hd
      by_cases h1 : hk = k1
      · subst h1
        by_cases h2 : k = hk <;> simp [assignOne, lookupF, h2]
      · by_cases h2 : k = hk
        · subst h2
          simp [assignOne, lookupF, h1]
        · simp [assignOne, lookupF, h1, h2, ih]

lemma lookupF_assignFields (src : List (String × JSVal)) :
    ∀ (dst : List (String × JSVal)) (k : String),
      lookupF (assignFields dst src) k = orElseO (lastLookup src k) (lookupF dst k) := by
  induction src with
  | nil => intro dst k; simp [assignFields, lastLookup, orElseO]
  | cons hd src' ih =>
      intro dst k
      obtain ⟨k1, v1⟩ := hd
      have hstep : assignFields dst ((k1, v1) :: src')
          = assignFields (assignOne dst (k1, v1)) src' := rfl
      rw [hstep, ih, lookupF_assignOne]
      by_cases h : k = k1
      · subst h
        cases hlast : lastLookup src' k with
        | some v => simp [lastLookup, orElseO, hlast]
        | none => simp [lastLookup, orElseO, hlast]
      · cases hlast : lastLookup src' k with
        | some v => simp [lastLookup, orElseO, hlast, h]
        | none => simp [lastLookup, orElseO, hlast, h]

lemma lookupF_assignFields_nil (src : List (String × JSVal)) (k : String) :
    lookupF (assignFields [] src) k = lastLookup src k := by
  rw [lookupF_assignFields]
  cases lastLookup src k <;> simp [orElseO, lookupF]

/-- A heap object: prototype flag plus own fields.  Used to model object
identity and (absence of) mutation for `nixOp.Update`. -/
structure HObj where
  protoNull : Bool
  fields : List (String × JSVal)
deriving Inhabited

/-- A tiny JS heap: objects addressed by their index; allocation appends. -/
structure Heap where
  mem : List HObj

/-- The attrset path of `nixOp.Update` at heap level:
`fixObjectProto({}, a, b) = Object.assign(Object.create(null), {}, a, b)`
allocates a fresh null-prototype object, copies `a`'s fields and then `b`'s
on top, and touches neither operand. -/
def updateHeap (h : Heap) (aId bId : Nat) : Option (Heap × Nat) :=
  match h.mem[aId]?, h.mem[bId]? with
  | some a, some b =>
      some (⟨h.mem ++ [⟨true, assignFields (assignFields [] a.fields) b.fields⟩]⟩,
        h.mem.length)
  | _, _ => none

/-- Claim C5: for attr-sets `a` and `b`, `a // b` returns a freshly allocated
null-prototype attr-set holding the shallow right-wins merge of `a` and `b`
(for every key `k`, the merged value is `b`'s if `b` has `k`, else `a`'s),
and both operands are unchanged afterwards: every pre-existing heap cell,
including the two operands, is untouched, and the result lives at a fresh
address.  The final conjunct ties the heap-level content to the structural
operator `nixOp.Update` (`nixUpdate`). -/
theorem update_merge_pure (h : Heap) (aId bId : Nat) (a b : HObj)
    (ha : h.mem[aId]? = some a) (hb : h.mem[bId]? = some b) :
    ∃ h2 : Heap,
      updateHeap h aId bId = some (h2, h.mem.length)
      ∧ h.mem[h.mem.length]? = none
      ∧ (∀ j, j < h.mem.length → h2.mem[j]? = h.mem[j]?)
      ∧ h2.mem[aId]? = some a
      ∧ h2.mem[bId]? = some b
      ∧ h2.mem[h.mem.length]?
          = some ⟨true, assignFields (assignFields [] a.fields) b.fields⟩
      ∧ (∀ k, lookupF (assignFields (assignFields [] a.fields) b.fields) k
          = orElseO (lastLookup b.fields k) (lastLookup a.fields k))
      ∧ (∀ pa pb, nixUpdate (.obj a.fields pa) (.obj b.fields pb)
          = .ok (.obj (assignFields (assignFields [] a.fields) b.fields) true)) := by
  have halen : aId < h.mem.length := by
    by_contra hlen
    push_neg at hlen
    rw [List.getElem?_eq_none hlen] at ha
    exact Option.noConfusion ha
  have hblen : bId < h.mem.length := by
    by_contra hlen
    push_neg at hlen
    rw [List.getElem?_eq_none hlen] at hb
    exact Option.noConfusion hb
  refine ⟨⟨h.mem ++ [⟨true, assignFields (assignFields [] a.fields) b.fields⟩]⟩,
    by simp [updateHeap, ha, hb], List.getElem?_eq_none (le_refl _), ?_, ?_, ?_, ?_, ?_, ?_⟩
  · intro j hj
    exact List.getElem?_append_left hj
  · rw [show (Heap.mk (h.mem ++ [⟨true, assignFields (assignFields [] a.fields) b.fields⟩])).mem
        = h.mem ++ [⟨true, assignFields (assignFields [] a.fields) b.fields⟩] from rfl,
      List.getElem?_append_left halen]
    exact ha
  · rw [show (Heap.mk (h.mem ++ [⟨true, assignFields (assignFields [] a.fields) b.fields⟩])).mem
        = h.mem ++ [⟨true, assignFields (assignFields [] a.fields) b.fields⟩] from rfl,
      List.getElem?_append_left hblen]
    exact hb
  · rw [show (Heap.mk (h.mem ++ [⟨true, assignFields (assignFields [] a.fields) b.fields⟩])).mem
        = h.mem ++ [⟨true, assignFields (assignFields [] a.fields) b.fields⟩] from rfl,
      List.getElem?_append_right (le_refl _)]
    simp
  · intro k
    rw [lookupF_assignFields, lookupF_assignFields_nil]
  · intro pa pb
    rfl

/-- Witness for `update_merge_pure`: a two-object heap holding
`{a = 1}` and `{a = 2, b = 3}`; the merge places the fresh object at
address 2, keeps both operands intact, and resolves key "a" to `b`'s value. -/
theorem update_merge_pure_witness :
    ∃ h2 : Heap,
      updateHeap ⟨[⟨false, [("a", JSVal.num 1)]⟩,
        ⟨false, [("a", JSVal.num 2), ("b", JSVal.num 3)]⟩]⟩ 0 1 = some (h2, 2)
      ∧ ([⟨false, [("a", JSVal.num 1)]⟩,
          ⟨false, [("a", JSVal.num 2), ("b", JSVal.num 3)]⟩] : List HObj)[2]? = none
      ∧ (∀ j, j < 2 → h2.mem[j]?
          = ([⟨false, [("a", JSVal.num 1)]⟩,
              ⟨false, [("a", JSVal.num 2), ("b", JSVal.num 3)]⟩] : List HObj)[j]?)
      ∧ h2.mem[0]? = some ⟨false, [("a", JSVal.num 1)]⟩
      ∧ h2.mem[1]? = some ⟨false, [("a", JSVal.num 2), ("b", JSVal.num 3)]⟩
      ∧ h2.mem[2]? = some ⟨true,
          assignFields (assignFields [] [("a", JSVal.num 1)])
            [("a", JSVal.num 2), ("b", JSVal.num 3)]⟩
      ∧ (∀ k, lookupF (assignFields (assignFields [] [("a", JSVal.num 1)])
            [("a", JSVal.num 2), ("b", JSVal.num 3)]) k
          = orElseO (lastLookup [("a", JSVal.num 2), ("b", JSVal.num 3)] k)
            (lastLookup [("a", JSVal.num 1)] k))
      ∧ (∀ pa pb, nixUpdate (.obj [("a", JSVal.num 1)] pa)
            (.obj [("a", JSVal.num 2), ("b", JSVal.num 3)] pb)
          = .ok (.obj (assignFields (assignFields [] [("a", JSVal.num 1)])
              [("a", JSVal.num 2), ("b", JSVal.num 3)]) true)) :=
  update_merge_pure ⟨[⟨false, [("a", JSVal.num 1)]⟩,
      ⟨false, [("a", JSVal.num 2), ("b", JSVal.num 3)]⟩]⟩ 0 1
    ⟨false, [("a", JSVal.num 1)]⟩ ⟨false, [("a", JSVal.num 2), ("b", JSVal.num 3)]⟩
    rfl rfl

/-- The `set` trap of the proxy returned by `mkScope`
(src/nix-builtins/index.ts, lines 100-114): `"__proto__"` raises
`ScopeError`; an already-present own key is left untouched and the trap
returns `false`; a fresh key is installed as a non-writable binding and the
trap returns `true`.  The scope state is its list of own bindings. -/
def scopeSetTrap (own : List (String × JSVal)) (k : String) (v : JSVal) :
    Except JSError (List (String × JSVal) × Bool) :=
  if k = "__proto__" then .error (.scopeError "Tried modifying prototype")
  else if (lookupF own k).isSome then .ok (own, false)
  else .ok (own ++ [(k, v)], true)

/-- A JS assignment `s[k] = v` through the proxy in strict-mode code (all
transpiled modules are ES modules, hence strict): when the `set` trap
returns `false` the JS engine raises a host `TypeError`; the trap itself
never raises except for `"__proto__"`. -/
def scopeAssign (own : List (String × JSVal)) (k : String) (v : JSVal) :
    Except JSError (List (String × JSVal)) :=
  match scopeSetTrap own k v with
  | .error e => .error e
  | .ok (own2, true) => .ok own2
  | .ok (_, false) =>
      .error (.typeError "proxy set trap returned falsish for property")

lemma lookupF_append_of_none (own : List (String × JSVal)) (k : String)
    (v : JSVal) (h : lookupF own k = none) :
    lookupF (own ++ [(k, v)]) k = some v := by
  induction own with
  | nil => simp [lookupF]
  | cons hd tl ih =>
      obtain ⟨hk, hv⟩ := hd
      by_cases h2 : k = hk
      · simp [lookupF, h2] at h
      · simp [lookupF, h2] at h ⊢
        exact ih h

/-- Claim C6, counterexample: after binding key "a" in a fresh writable
scope, a second assignment to "a" does not raise `ScopeError` as the claim
states.  The proxy `set` trap merely refuses (returns `false`, leaving the
binding unchanged), which strict-mode JS surfaces as a host `TypeError`. -/
theorem scope_rebind_not_scopeerror_cex :
    scopeAssign [] "a" (JSVal.num 1) = .ok [("a", JSVal.num 1)]
    ∧ scopeSetTrap [("a", JSVal.num 1)] "a" (JSVal.num 2)
        = .ok ([("a", JSVal.num 1)], false)
    ∧ scopeAssign [("a", JSVal.num 1)] "a" (JSVal.num 2)
        = .error (.typeError "proxy set trap returned falsish for property") :=
  ⟨rfl, rfl, rfl⟩

/-- Claim C6, amended: for a writable scope `s` and a key `k` other than
`"__proto__"` that is not yet bound in `s`, the assignment `s[k] = v`
succeeds and installs the binding.  A subsequent assignment `s[k] = v2` is
refused without modifying the binding: the proxy `set` trap returns `false`,
which strict-mode JS raises as a host `TypeError` — not a `ScopeError`.
`ScopeError` is raised only for the reserved key `"__proto__"`.  Bindings
are never overwritten (and never deleted: they are installed
non-configurable and the proxy has no delete trap). -/
theorem scope_single_assignment (own : List (String × JSVal)) (k : String)
    (v : JSVal) (hk : k ≠ "__proto__") (hfree : lookupF own k = none) :
    scopeSetTrap own k v = .ok (own ++ [(k, v)], true)
    ∧ scopeAssign own k v = .ok (own ++ [(k, v)])
    ∧ (∀ v2, scopeSetTrap (own ++ [(k, v)]) k v2 = .ok (own ++ [(k, v)], false))
    ∧ (∀ v2, scopeAssign (own ++ [(k, v)]) k v2
        = .error (.typeError "proxy set trap returned falsish for property"))
    ∧ (∀ v2, scopeSetTrap own "__proto__" v2
        = .error (.scopeError "Tried modifying prototype")) := by
  have hbound : lookupF (own ++ [(k, v)]) k = some v :=
    lookupF_append_of_none own k v hfree
  refine ⟨?_, ?_, ?_, ?_, ?_⟩
  · simp [scopeSetTrap, hk, hfree]
  · simp [scopeAssign, scopeSetTrap, hk, hfree]
  · intro v2
    simp [scopeSetTrap, hk, hbound]
  · intro v2
    simp [scopeAssign, scopeSetTrap, hk, hbound]
  · intro v2
    simp [scopeSetTrap]

/-- Witness for `scope_single_assignment` on the empty scope with key "x". -/
theorem scope_single_assignment_witness :
    scopeSetTrap [] "x" (JSVal.num 7) = .ok ([("x", JSVal.num 7)], true)
    ∧ scopeAssign [] "x" (JSVal.num 7) = .ok [("x", JSVal.num 7)]
    ∧ (∀ v2, scopeSetTrap [("x", JSVal.num 7)] "x" v2
        = .ok ([("x", JSVal.num 7)], false))
    ∧ (∀ v2, scopeAssign [("x", JSVal.num 7)] "x" v2
        = .error (.typeError "proxy set trap returned falsish for property"))
    ∧ (∀ v2, scopeSetTrap [] "__proto__" v2
        = .error (.scopeError "Tried modifying prototype")) :=
  scope_single_assignment [] "x" (JSVal.num 7) (by decide) rfl

/-- A filesystem entry: a regular file with contents, or a directory
(reading a directory raises the "illegal operation on a directory" error
that `importTail` detects). -/
inductive FSEntry : Type where
  | file (content : String)
  | dir
deriving DecidableEq

/-- State of the import engine: the `import_cache` `Map` (path to the
promise created by `importTail`, identified by its allocation index), and
the ordered list of `importTail` invocations (one per started translation;
index `n` in this list is promise id `n`). -/
structure ImportState where
  cache : List (String × Nat)
  tails : List String

/-- Path lookup in the import cache (`Map.has` / `Map.get`). -/
def cacheLookup : List (String × Nat) → String → Option Nat
  | [], _ => none
  | (p1, n1) :: rest, p => if p = p1 then some n1 else cacheLookup rest p

/-- `import_` (the import engine, `import_`/`importTail`): if the path is
cached, return the cached promise; otherwise invoke `importTail` — which
allocates the promise — and store that promise in the cache synchronously,
before any asynchronous work (file read, translation, evaluation) runs. -/
def import_ (st : ImportState) (p : String) : ImportState × Nat :=
  match cacheLookup st.cache p with
  | some pid => (st, pid)
  | none =>
      (⟨st.cache ++ [(p, st.tails.length)], st.tails ++ [p]⟩, st.tails.length)

/-- Read/translate accounting of one `importTail(p)` run against a
filesystem: on a regular file, one read attempt, one successful read, one
translation; on a directory, the first read fails and `p + "/default.nix"`
is retried; on a missing path the read error propagates (wrapped) with no
translation. -/
def importTailStats (fs : String → Option FSEntry) (p : String) :
    Nat × Nat × Nat × Option String :=
  match fs p with
  | some (.file c) => (1, 1, 1, some c)
  | some .dir =>
      match fs (p ++ "/default.nix") with
      | some (.file c) => (2, 1, 1, some c)
      | _ => (2, 0, 0, none)
  | none => (1, 0, 0, none)

lemma cacheLookup_append_self (cache : List (String × Nat)) (p : String)
    (n : Nat) (h : cacheLookup cache p = none) :
    cacheLookup (cache ++ [(p, n)]) p = some n := by
  induction cache with
  | nil => simp [cacheLookup]
  | cons hd tl ih =>
      obtain ⟨p1, n1⟩ := hd
      by_cases h2 : p = p1
      · simp [cacheLookup, h2] at h
      · simp [cacheLookup, h2] at h ⊢
        exact ih h

/-- Claim C7: importing a path `p` that is not yet cached installs the
`importTail` promise in the cache synchronously — before evaluation of the
module completes — so a second `import_(p)` returns the very same promise
(hence the same evaluated module value), the engine state is unchanged by
the second call, and `importTail` has run exactly once for `p`.  Against a
filesystem where `p` is a regular file, that single `importTail` run
performs exactly one file read and one translation. -/
theorem import_idempotent (st : ImportState) (p : String)
    (hfresh : cacheLookup st.cache p = none) :
    (import_ st p).2 = ((import_ st p).1, ((import_ st p).1.tails.length - 1)).2
    ∧ import_ (import_ st p).1 p = ((import_ st p).1, (import_ st p).2)
    ∧ (import_ st p).1.tails = st.tails ++ [p]
    ∧ cacheLookup (import_ st p).1.cache p = some (import_ st p).2
    ∧ (∀ fs c, fs p = some (.file c) → importTailStats fs p = (1, 1, 1, some c)) := by
  have hstep : import_ st p
      = (⟨st.cache ++ [(p, st.tails.length)], st.tails ++ [p]⟩, st.tails.length) := by
    simp [import_, hfresh]
  have hcached : cacheLookup (st.cache ++ [(p, st.tails.length)]) p
      = some st.tails.length := cacheLookup_append_self st.cache p _ hfresh
  refine ⟨?_, ?_, ?_, ?_, ?_⟩
  · rw [hstep]
    simp
  · rw [hstep]
    simp [import_, hcached]
  · rw [hstep]
  · rw [hstep]
    exact hcached
  · intro fs c hc
    simp [importTailStats, hc]

/-- Witness for `import_idempotent`: a fresh engine importing "/a.nix" from
a one-file filesystem. -/
theorem import_idempotent_witness :
    (import_ ⟨[], []⟩ "/a.nix").2
      = ((import_ ⟨[], []⟩ "/a.nix").1, ((import_ ⟨[], []⟩ "/a.nix").1.tails.length - 1)).2
    ∧ import_ (import_ ⟨[], []⟩ "/a.nix").1 "/a.nix"
      = ((import_ ⟨[], []⟩ "/a.nix").1, (import_ ⟨[], []⟩ "/a.nix").2)
    ∧ (import_ ⟨[], []⟩ "/a.nix").1.tails = [] ++ ["/a.nix"]
    ∧ cacheLookup (import_ ⟨[], []⟩ "/a.nix").1.cache "/a.nix"
      = some (import_ ⟨[], []⟩ "/a.nix").2
    ∧ (∀ fs c, fs "/a.nix" = some (.file c)
        → importTailStats fs "/a.nix" = (1, 1, 1, some c)) :=
  import_idempotent ⟨[], []⟩ "/a.nix" rfl

/-- A character matched by the JS class `[A-Za-z0-9]`. -/
def isAlnumCh (c : Char) : Bool := c.isAlpha || c.isDigit

/-- Outer phase of `splitVersion` (src/nix-builtins/index.ts, lines 174-178):
`s.split(/[^A-Za-z0-9]/)` — split at every non-alphanumeric character
(consecutive separators produce empty tokens, which the inner phase drops). -/
def splitOnSep : List Char → List Char → List (List Char)
  | [], acc => [acc.reverse]
  | c :: rest, acc =>
      if isAlnumCh c then splitOnSep rest (c :: acc)
      else acc.reverse :: splitOnSep rest []

/-- Inner phase of `splitVersion`: within one alphanumeric token,
`x.split(/([A-Za-z]+|[0-9]+)/).filter(odd positions)` keeps the captured
groups, i.e. the maximal runs of letters and of digits. -/
def groupRuns : List Char → List (List Char)
  | [] => []
  | c :: cs =>
      let pred := fun d => if c.isDigit then d.isDigit else d.isAlpha
      (c :: cs.takeWhile pred) :: groupRuns (cs.dropWhile pred)
termination_by l => l.length
decreasing_by
  simp only [List.length_cons]
  exact Nat.lt_succ_of_le (List.dropWhile_sublist _).length_le

/-- `splitVersion`: split on non-alphanumerics, split each token into
letter/digit runs, and flatten. -/
def splitVersion (s : String) : List String :=
  ((splitOnSep s.toList []).map groupRuns).flatten.map (fun cs => String.mk cs)

/-- JS `a && a.match(/^[0-9]+$/g) !== null`: the component is a nonempty
string of digits (an absent — `undefined` — component is not numeric). -/
def isNumStr : Option String → Bool
  | some s => !s.isEmpty && s.toList.all Char.isDigit
  | none => false

/-- `parseInt` on a digit string. -/
def digitsToNat (s : String) : Nat :=
  s.toList.foldl (fun n c => n * 10 + (c.toNat - Char.toNat '0')) 0

/-- JS `<` between a component pair where either side may be `undefined`:
any comparison against `undefined` is `false`. -/
def jsLtStr : Option String → Option String → Bool
  | some x, some y => decide (x < y)
  | _, _ => false

/-- Pairwise component comparison of `compareVersions`
(src/nix-builtins/index.ts, lines 576-590), including the `_.zip` padding
value `undefined` (`Option.none`): equal components give 0; two numeric
components compare as integers; an absent component is below a numeric one;
`"pre"` is below everything else; numeric components are above remaining
letter components; otherwise JS string order decides. -/
def cmpComponent (a b : Option String) : Int :=
  if a = b then 0
  else
    let ina := isNumStr a
    let inb := isNumStr b
    if ina && inb then
      let pia := digitsToNat ((a.getD ""))
      let pib := digitsToNat ((b.getD ""))
      if pia < pib then -1 else if pia = pib then 0 else 1
    else if (a = some "" ∨ a = none) ∧ inb then -1
    else if ina && (b = some "" ∨ b = none : Bool) then 1
    else if a = some "pre" ∨ (!ina && inb) = true then -1
    else if b = some "pre" ∨ (ina && !inb) = true then 1
    else if jsLtStr a b then -1
    else if a = b then 0
    else 1

/-- `_.zip`: pad the shorter list with `undefined`. -/
def zipPad : List String → List String → List (Option String × Option String)
  | [], [] => []
  | x :: xs, [] => (some x, none) :: zipPad xs []
  | [], y :: ys => (none, some y) :: zipPad [] ys
  | x :: xs, y :: ys => (some x, some y) :: zipPad xs ys

/-- `.find((x) => x !== undefined && x !== 0)` then default 0. -/
def firstNonZero : List Int → Int
  | [] => 0
  | x :: rest => if x ≠ 0 then x else firstNonZero rest

/-- `compareVersions` (src/nix-builtins/index.ts, lines 573-593): split both
versions, compare componentwise over the padded zip, return the first
non-zero comparison (or 0). -/
def compareVersions (s1 s2 : String) : Int :=
  firstNonZero ((zipPad (splitVersion s1) (splitVersion s2)).map
    (fun p => cmpComponent p.1 p.2))

lemma cmp_pre_lt (c : Option String) (hc : c ≠ some "pre") :
    cmpComponent (some "pre") c = -1 := by
  have h1 : (some "pre" : Option String) ≠ c := fun h => hc h.symm
  have h2 : isNumStr (some "pre") = false := by decide
  simp [cmpComponent, h1, h2]

lemma cmp_pre_gt (c : Option String) (hc : c ≠ some "pre") :
    cmpComponent c (some "pre") = 1 := by
  have h2 : isNumStr (some "pre") = false := by decide
  simp [cmpComponent, hc, h2]

/-- Claim C8: `compareVersions` compares componentwise (split on
non-alphanumerics and at letter/digit boundaries, compare pairwise over the
`undefined`-padded zip, first non-zero wins) with `"pre"` below every other
component — including the absent component, which is why `"2.3pre1" < "2.3"`
— and the four concrete orderings from the specification hold. -/
theorem compareVersions_spec :
    (∀ c : Option String, c ≠ some "pre" →
      cmpComponent (some "pre") c = -1 ∧ cmpComponent c (some "pre") = 1)
    ∧ compareVersions "2.3pre1" "2.3" = -1
    ∧ compareVersions "2.3.1" "2.3" = 1
    ∧ compareVersions "2.3pre3" "2.3pre12" = -1
    ∧ compareVersions "2.3a" "2.3c" = -1 := by
  refine ⟨fun c hc => ⟨cmp_pre_lt c hc, cmp_pre_gt c hc⟩, ?_, ?_, ?_, ?_⟩ <;>
    simp [compareVersions, splitVersion, splitOnSep, groupRuns, isAlnumCh,
      zipPad, cmpComponent, isNumStr, digitsToNat, jsLtStr, firstNonZero] <;>
    decide

/-- Witness for `compareVersions_spec`: the component `"2"` is not `"pre"`,
and `"pre"` compares below it in both argument orders. -/
theorem compareVersions_spec_witness :
    cmpComponent (some "pre") (some "2") = -1
    ∧ cmpComponent (some "2") (some "pre") = 1 :=
  compareVersions_spec.1 (some "2") (by decide)

/-- `Object.keys`: enumerable own property names in insertion order (array
indices for arrays, nothing for primitives and `null`). -/
def objKeys (v : JSVal) : List String :=
  (fieldsOf v).map Prod.fst

/-- The `onlyUnique` filter (`indexOf(value) == index`): keep the first
occurrence of each element. -/
def dedupFirst (l : List String) : List String :=
  l.foldl (fun acc k => if acc.contains k then acc else acc ++ [k]) []

/-- `intersectAttrs` (src/nix-builtins/index.ts, lines 671-677) as written in
the code: it computes `Object.keys(e1).filter((v) => e2k.includes(v))
.filter(onlyUnique)` and returns that ARRAY OF KEY STRINGS — it never builds
an attrset and never reads a value out of `e2`. -/
def intersectAttrs (e1 e2 : JSVal) : JSVal :=
  .list ((dedupFirst ((objKeys e1).filter
    (fun k => (objKeys e2).contains k))).map JSVal.str)

/-- Claim C9 (code bug): `builtins.intersectAttrs {a = 1; b = 2} {a = 3}`
must by the claim (and Nix semantics) be the attr-set `{a = 3}` — keys in
both, values from the second argument — but the implementation returns the
JS array `["a"]`, a Nix list of key names.  The result is not even an
attrset. -/
theorem intersectAttrs_returns_key_list :
    intersectAttrs (.obj [("a", JSVal.num 1), ("b", JSVal.num 2)] true)
        (.obj [("a", JSVal.num 3)] true)
      = .list [.str "a"]
    ∧ (∀ fs p, intersectAttrs (.obj [("a", JSVal.num 1), ("b", JSVal.num 2)] true)
        (.obj [("a", JSVal.num 3)] true) ≠ .obj fs p) := by
  refine ⟨rfl, fun fs p h => ?_⟩
  rw [show intersectAttrs (.obj [("a", JSVal.num 1), ("b", JSVal.num 2)] true)
      (.obj [("a", JSVal.num 3)] true) = .list [.str "a"] from rfl] at h
  exact JSVal.noConfusion h

/-- JS property-key stringification for the non-string values that can appear
as `ent.name` keys; the claims only exercise string keys. -/
def jsPropKey : Option JSVal → String
  | some (.str s) => s
  | some .null => "null"
  | some (.bool b) => if b then "true" else "false"
  | some (.bigint n) => toString n
  | _ => "undefined"

/-- Own-property read `v[k]` (`undefined` as `none`). -/
def getOwn (v : JSVal) (k : String) : Option JSVal :=
  lookupF (fieldsOf v) k

/-- `listToAttrs` (src/nix-builtins/index.ts, lines 697-707):
`fixObjectProto(Object.fromEntries(list.map((ent) => [ent.name, ent.value])))`;
a non-list argument fails `tyforce_list`. -/
def listToAttrs (list : JSVal) : Except JSError JSVal :=
  match list with
  | .list xs => .ok (fixObjectProto [.obj (xs.map (fun ent =>
      (jsPropKey (getOwn ent "name"), (getOwn ent "value").getD .undef))) false])
  | v => .error (.typeError ("value is " ++ tyName (jsTypeof v)
      ++ " while an object was expected"))

/-- `mapAttrs` (src/nix-builtins/index.ts, lines 711-719):
`fixObjectProto(Object.fromEntries(Object.entries(aset).map(([k, v]) =>
[k, f(k)(v)])))`; `Object.entries` throws on `null`/`undefined`. -/
def mapAttrs (f : String → JSVal → JSVal) (aset : JSVal) : Except JSError JSVal :=
  match aset with
  | .null => .error (.typeError "Cannot convert undefined or null to object")
  | .undef => .error (.typeError "Cannot convert undefined or null to object")
  | v => .ok (fixObjectProto [.obj ((fieldsOf v).map (fun p => (p.1, f p.1 p.2))) false])

/-- `removeAttrs` (src/nix-builtins/index.ts, lines 738-745): copy the input
through `fixObjectProto` (so the original is not mutated), then delete the
listed keys from the copy. -/
def removeAttrs (aset : JSVal) (list : JSVal) : Except JSError JSVal :=
  match list with
  | .list keys => .ok (.obj ((assignFields [] (fieldsOf aset)).filter
      (fun q => !(keys.map (fun k => jsPropKey (some k))).contains q.1)) true)
  | v => .error (.typeError ("value is " ++ tyName (jsTypeof v)
      ++ " while an object was expected"))

/-- `partition` (src/nix-builtins/index.ts, lines 729-733):
`fixObjectProto({right, wrong})` with lodash `_.partition`.  The predicate is
abstracted as a boolean test on the element; the claim under verification
concerns only the prototype of the result record. -/
def partitionB (pred : JSVal → Bool) (list : JSVal) : Except JSError JSVal :=
  match list with
  | .list xs => .ok (fixObjectProto [.obj
      [("right", .list (xs.filter pred)),
       ("wrong", .list (xs.filter (fun x => !pred x)))] false])
  | v => .error (.typeError ("value is " ++ tyName (jsTypeof v)
      ++ " while an object was expected"))

/-- `parseDrvName` (src/nix-builtins/index.ts, lines 725-728):
`s.split("-", 2)` keeps the first two dash-separated fragments;
`fixObjectProto({name, version})`.  `version` is `undefined` when the string
has no dash. -/
def parseDrvName (s : JSVal) : Except JSError JSVal :=
  match s with
  | .str str =>
      .ok (fixObjectProto [.obj
        [("name", .str ((str.splitOn "-").headD "")),
         ("version", match (str.splitOn "-")[1]? with
           | some v => .str v
           | none => .undef)] false])
  | v => .error (.typeError ("value is " ++ tyName (jsTypeof v)
      ++ " while a string was expected"))

/-- Claim C10: every attrset constructed and returned by the builtins table —
the `//` merge (`nixOp.Update`), `listToAttrs`, `mapAttrs`, `removeAttrs`,
`partition`, `parseDrvName`, and the `{value, success}` record of `tryEval` —
is built through `fixObjectProto` and therefore has a null prototype: it
exposes no inherited keys and writing a key into it cannot touch
`Object.prototype`. -/
theorem builtins_null_proto :
    (∀ a b r, nixUpdate a b = .ok r → protoNullOf r = true)
    ∧ (∀ l r, listToAttrs l = .ok r → protoNullOf r = true)
    ∧ (∀ f a r, mapAttrs f a = .ok r → protoNullOf r = true)
    ∧ (∀ a l r, removeAttrs a l = .ok r → protoNullOf r = true)
    ∧ (∀ p l r, partitionB p l = .ok r → protoNullOf r = true)
    ∧ (∀ s r, parseDrvName s = .ok r → protoNullOf r = true)
    ∧ (∀ e r, tryEval e = .ok r → protoNullOf r = true) := by
  refine ⟨?_, ?_, ?_, ?_, ?_, ?_, ?_⟩
  · intro a b r h
    unfold nixUpdate binop_helper at h
    split at h
    · unfold updateF at h
      split at h
      · cases h
      · injection h with h2
        subst h2
        rfl
    · cases h
  · intro l r h
    unfold listToAttrs at h
    split at h
    · injection h with h2
      subst h2
      rfl
    · cases h
  · intro f a r h
    unfold mapAttrs at h
    split at h
    · cases h
    · cases h
    · injection h with h2
      subst h2
      rfl
  · intro a l r h
    unfold removeAttrs at h
    split at h
    · injection h with h2
      subst h2
      rfl
    · cases h
  · intro p l r h
    unfold partitionB at h
    split at h
    · injection h with h2
      subst h2
      rfl
    · cases h
  · intro s r h
    unfold parseDrvName at h
    split at h
    · injection h with h2
      subst h2
      rfl
    · cases h
  · intro e r h
    unfold tryEval at h
    split at h
    · injection h with h2
      subst h2
      rfl
    · injection h with h2
      subst h2
      rfl
    · cases h

/-- Witness for `builtins_null_proto`: the record `tryEval` returns for a
successfully forced `null` has a null prototype. -/
theorem builtins_null_proto_witness :
    protoNullOf (JSVal.obj [("value", JSVal.null), ("success", JSVal.bool true)] true)
      = true :=
  builtins_null_proto.2.2.2.2.2.2 (.ok JSVal.null)
    (JSVal.obj [("value", JSVal.null), ("success", JSVal.bool true)] true) rfl

/-- The mutable state of a `Lazy` instance (src/nix-builtins/index.js,
lines 17-48): the field `i` holds either the producer function or the
computed value, and `iL` records whether `i` is still a producer to run.
A producer (a JS closure, possibly with side effects) is modelled as a
function of the number of producer applications performed so far — so
re-running it is observable — returning `none` when the application throws,
or the produced value (possibly another `Lazy`, triggering the splice
loop in `evaluate`). -/
inductive LazyObj (V : Type) : Type where
  | mk (i : (Nat → Option (LazyObj V ⊕ V)) ⊕ V) (iL : Bool)

/-- A thunk producer: given the current count of producer applications,
either throws (`none`) or returns a `Lazy` or a plain value. -/
abbrev Producer (V : Type) := Nat → Option (LazyObj V ⊕ V)

/-- Outcome of one `evaluate()` call: `ret` is the returned `this.i`
(`none` when an exception propagated), `i`/`iL` are the fields of the thunk
after the call, and `cnt` is the total number of producer applications
performed so far. -/
structure EvalResult (V : Type) where
  ret : Option (Producer V ⊕ V)
  i : Producer V ⊕ V
  iL : Bool
  cnt : Nat

/-- `Lazy.evaluate` (src/nix-builtins/index.js, lines 30-44):
`while (this.iL) { this.iL = false; let res = this.i(); if (res instanceof
Lazy) adopt res.iL/res.i else { this.i = res; break; } } return this.i;`.
`iL` is cleared BEFORE the producer runs, and nothing restores it if the
producer throws.  The outer `Option` is the loop fuel (`none` = the splice
chain was longer than the fuel); applying a non-function `i` throws. -/
def evalLoop {V : Type} : Nat → (Producer V ⊕ V) → Bool → Nat → Option (EvalResult V)
  | _, i, false, cnt => some ⟨some i, i, false, cnt⟩
  | 0, _, true, _ => none
  | _ + 1, .inr v, true, cnt => some ⟨none, .inr v, false, cnt⟩
  | fuel + 1, .inl p, true, cnt =>
      match p cnt with
      | none => some ⟨none, .inl p, false, cnt + 1⟩
      | some (.inr v) => some ⟨some (.inr v), .inr v, false, cnt + 1⟩
      | some (.inl (.mk i2 iL2)) => evalLoop fuel i2 iL2 (cnt + 1)

/-- The `Lazy` constructor applied to a function argument
(src/nix-builtins/index.js, lines 18-28): `i` is the producer and `iL` is
`true`. -/
def lazyOfProducer {V : Type} (p : Producer V) : LazyObj V :=
  .mk (.inl p) true

/-- `force` (src/nix-builtins/index.js, lines 50-56): a `Lazy` is driven by
`evaluate`; any other value is returned verbatim (with no state change and
no producer run). -/
def forceL {V : Type} (fuel : Nat) : (LazyObj V ⊕ V) → Nat → Option (EvalResult V)
  | .inl (.mk i iL), cnt => evalLoop fuel i iL cnt
  | .inr v, cnt => some ⟨some (.inr v), .inr v, false, cnt⟩

/-- A producer of plain values: applying it at run-count `n` returns `f n`
(never throws, never returns a nested `Lazy`). -/
def mkProducerVal {V : Type} (f : Nat → V) : Producer V :=
  fun n => some (.inr (f n))

lemma evalLoop_false {V : Type} (fuel : Nat) (i : Producer V ⊕ V) (cnt : Nat) :
    evalLoop fuel i false cnt = some ⟨some i, i, false, cnt⟩ := by
  cases fuel with
  | zero => rfl
  | succ n => cases i <;> rfl

/-- Claim C1: a thunk built from a nullary producer is memoised.  The first
force runs the producer exactly once (the application count goes from 0
to 1) and records its result in `i` with `iL := false`; every subsequent
force of the resulting thunk state returns that same value while the
application count stays 1 — the producer is not re-run and there is no
further observable side effect. -/
theorem thunk_memoised {V : Type} (f : Nat → V) (fuel : Nat) (hfuel : 1 ≤ fuel) :
    forceL fuel (.inl (lazyOfProducer (mkProducerVal f))) 0
      = some ⟨some (.inr (f 0)), .inr (f 0), false, 1⟩
    ∧ ∀ fuel2, forceL fuel2 (.inl (.mk (.inr (f 0)) false)) 1
        = some ⟨some (.inr (f 0)), .inr (f 0), false, 1⟩ := by
  obtain ⟨f2, rfl⟩ : ∃ f2, fuel = f2 + 1 :=
    ⟨fuel - 1, (Nat.succ_pred_eq_of_pos hfuel).symm⟩
  exact ⟨rfl, fun fuel2 => evalLoop_false fuel2 _ 1⟩

/-- Witness for `thunk_memoised`: the producer `n ↦ n + 7` with fuel 1. -/
theorem thunk_memoised_witness :
    1 ≤ 1
    ∧ forceL 1 (.inl (lazyOfProducer (mkProducerVal (fun n : Nat => n + 7)))) 0
      = some ⟨some (.inr 7), .inr 7, false, 1⟩ :=
  ⟨le_refl 1, (thunk_memoised (fun n : Nat => n + 7) 1 (le_refl 1)).1⟩

/-- A producer that throws on its first application and would return 42 on
any retry. -/
def pthrowNat : Producer Nat :=
  fun n => if n = 0 then none else some (.inr 42)

/-- Claim C3, counterexample: forcing a fresh thunk over `pthrowNat` makes
the producer throw; the claim says the thunk is then restored to the
unforced state (`iL = true`) so that a retry re-runs the producer.  In the
code `iL` was cleared before the producer ran and stays `false`; the
retry returns the stored producer function itself as the value, without
applying it (the application count stays 1 and `ret` holds the producer,
not 42). -/
theorem lazy_failure_not_restored_cex :
    (evalLoop 5 (.inl pthrowNat) true 0).map (fun r => r.iL) = some false
    ∧ evalLoop 5 (.inl pthrowNat) true 0
      = some ⟨none, .inl pthrowNat, false, 1⟩
    ∧ evalLoop 5 (.inl pthrowNat) false 1
      = some ⟨some (.inl pthrowNat), .inl pthrowNat, false, 1⟩ :=
  ⟨rfl, rfl, rfl⟩

/-- Claim C3, amended: if a thunk's producer throws during force, the error
propagates but the thunk is NOT restored to the unforced state: `iL` stays
`false` with the producer still stored in `i`, so a caller that catches the
error and forces again does not re-run the producer — the second force
returns the stored producer function itself as the value, with no further
producer application.  Retry is not possible. -/
theorem lazy_failure_sticky {V : Type} (p : Producer V) (cnt fuel : Nat)
    (hfuel : 1 ≤ fuel) (hthrow : p cnt = none) :
    evalLoop fuel (.inl p) true cnt = some ⟨none, .inl p, false, cnt + 1⟩
    ∧ ∀ fuel2, evalLoop fuel2 (.inl p) false (cnt + 1)
        = some ⟨some (.inl p), .inl p, false, cnt + 1⟩ := by
  obtain ⟨f2, rfl⟩ : ∃ f2, fuel = f2 + 1 :=
    ⟨fuel - 1, (Nat.succ_pred_eq_of_pos hfuel).symm⟩
  refine ⟨?_, fun fuel2 => evalLoop_false fuel2 _ (cnt + 1)⟩
  simp [evalLoop, hthrow]

/-- Witness for `lazy_failure_sticky` at the concrete throwing producer. -/
theorem lazy_failure_sticky_witness :
    1 ≤ 5
    ∧ pthrowNat 0 = none
    ∧ evalLoop 5 (.inl pthrowNat) true 0 = some ⟨none, .inl pthrowNat, false, 1⟩ :=
  ⟨by decide, rfl, (lazy_failure_sticky pthrowNat 0 5 (by decide) rfl).1⟩
